import Mathlib

/-!
Verification of the clip-path editor's path-geometry and mutation engine.

Shallow embedding conventions:
* JavaScript numbers are modelled as rationals (`ℚ`); all the arithmetic the
  source performs on them (add, mul, div, compare, clamp) is exact on `ℚ`.
* `Math.sqrt` is modelled as an abstract function `sq : ℚ → ℚ` passed to the
  operations that call it; theorems that depend on its value assume
  `GoodSqrt sq q` (the result is the exact nonnegative square root) at the
  finitely many inputs the operation evaluates it on.
* `Math.random`-based id generation is modelled by passing the fresh id in.
* JavaScript string building is modelled with an abstract number formatter
  `fmt : ℚ → String` standing for JS number-to-string conversion.
* Code whose result is not a well-typed value (spreading `undefined` into an
  object, indexing with `NaN`) returns `Option` and yields `none` there.
-/

namespace ClipPathEditor

/-- 2-D vector `{x, y}` as used for positions and handle offsets. -/
structure V2 where
  x : ℚ
  y : ℚ
deriving DecidableEq

/-- Pointwise negation of a vector, `(-v.x, -v.y)`. -/
def V2.neg (v : V2) : V2 := ⟨-v.x, -v.y⟩

instance : Inhabited V2 := ⟨⟨0, 0⟩⟩

/-- A control vertex (`Point` in `src/types/index.ts`): id, position in
percentage space, incoming/outgoing handle offsets, mirror flag. -/
structure Point where
  id : String
  x : ℚ
  y : ℚ
  handleIn : V2
  handleOut : V2
  isMirrored : Bool
deriving DecidableEq

instance : Inhabited Point := ⟨⟨"", 0, 0, ⟨0, 0⟩, ⟨0, 0⟩, false⟩⟩

/-- The tool union type `'select' | 'add' | 'pan'`. -/
inductive Tool where
  | select
  | add
  | pan
deriving DecidableEq

/-- The handle kind union `'in' | 'out'`. -/
inductive HandleType where
  | hin
  | hout
deriving DecidableEq

/-- `EditorState` from `src/types/index.ts`. -/
structure EditorState where
  tool : Tool
  points : List Point
  selectedPointIds : List String
  selectedHandleType : Option HandleType
  imageDataUrl : Option String
  imageWidth : ℚ
  imageHeight : ℚ
  isClosed : Bool
deriving DecidableEq

/-- The initial editor state from `EditorContext.tsx` (`useState` initializer). -/
def initialEditorState : EditorState :=
  { tool := Tool.select
    points := []
    selectedPointIds := []
    selectedHandleType := none
    imageDataUrl := none
    imageWidth := 0
    imageHeight := 0
    isClosed := false }

/-- `Math.min` on two (non-NaN) numbers. -/
def jsMin (a b : ℚ) : ℚ := if a ≤ b then a else b

/-- `Math.max` on two (non-NaN) numbers. -/
def jsMax (a b : ℚ) : ℚ := if a ≤ b then b else a

/-- `Math.max(0, Math.min(100, v))` — the coordinate clamp used by the move
operations. -/
def clamp100 (v : ℚ) : ℚ := jsMax 0 (jsMin 100 v)

/-- `sq` models `Math.sqrt`; `GoodSqrt sq q` says `sq` returns the exact
nonnegative square root at input `q`. -/
def GoodSqrt (sq : ℚ → ℚ) (q : ℚ) : Prop := 0 ≤ sq q ∧ sq q * sq q = q

-- ---------------------------------------------------------------------------
-- Mutation operations (EditorContext.tsx)
-- ---------------------------------------------------------------------------

/-- `addPoint(x, y)` from `EditorContext.tsx`: appends a new point; when a
previous point exists and is farther than 1 unit, aligns the new point's
handles with the incoming direction (length 5) and retroactively points the
previous point's `handleOut` toward the new point; otherwise uses the default
handles `{-5,0}` / `{5,0}`. The fresh random id is passed in as `newId`. -/
def addPoint (sq : ℚ → ℚ) (newId : String) (x y : ℚ) (s : EditorState) : EditorState :=
  match s.points.getLast? with
  | none =>
      let newPoint : Point := ⟨newId, x, y, ⟨-5, 0⟩, ⟨5, 0⟩, true⟩
      { s with points := s.points ++ [newPoint]
               selectedPointIds := [newId]
               selectedHandleType := none }
  | some prevPoint =>
      let dx := x - prevPoint.x
      let dy := y - prevPoint.y
      let length := sq (dx * dx + dy * dy)
      if 1 < length then
        let nx := dx / length * 5
        let ny := dy / length * 5
        let updatedPoints := s.points.dropLast ++ [{ prevPoint with handleOut := ⟨nx, ny⟩ }]
        let newPoint : Point := ⟨newId, x, y, ⟨-nx, -ny⟩, ⟨nx, ny⟩, true⟩
        { s with points := updatedPoints ++ [newPoint]
                 selectedPointIds := [newId]
                 selectedHandleType := none }
      else
        let newPoint : Point := ⟨newId, x, y, ⟨-5, 0⟩, ⟨5, 0⟩, true⟩
        { s with points := s.points ++ [newPoint]
                 selectedPointIds := [newId]
                 selectedHandleType := none }

/-- Replace the element at an index by `f` of it, leaving the list otherwise
unchanged (the `newPoints[i] = {...newPoints[i], ...}` idiom). -/
def modifyAt (f : Point → Point) : ℕ → List Point → List Point
  | _, [] => []
  | 0, p :: ps => f p :: ps
  | n + 1, p :: ps => p :: modifyAt f n ps

/-- `insertPoint(index, x, y, handleIn, handleOut, prevPointHandleOut,
nextPointHandleIn)` from `EditorContext.tsx`: overwrites `handleOut` of the
point at `index` and `handleIn` of the point at `(index+1) % length` (clearing
both mirror flags), then splices the new unmirrored point in after `index`.
The source has no bounds check: with an empty list (or an out-of-range index)
the JS code spreads `undefined` and indexes with `NaN`, producing an array
holding a value without the `Point` fields; that outcome has no well-typed
state, so it is modelled as `none`. -/
def insertPoint (newId : String) (index : ℕ) (x y : ℚ)
    (handleIn handleOut prevPointHandleOut nextPointHandleIn : V2)
    (s : EditorState) : Option EditorState :=
  if index < s.points.length then
    let newPoint : Point := ⟨newId, x, y, handleIn, handleOut, false⟩
    let nextIndex := (index + 1) % s.points.length
    let pts1 := modifyAt (fun p => { p with handleOut := prevPointHandleOut, isMirrored := false })
      index s.points
    let pts2 := modifyAt (fun p => { p with handleIn := nextPointHandleIn, isMirrored := false })
      nextIndex pts1
    some { s with points := pts2.take (index + 1) ++ newPoint :: pts2.drop (index + 1)
                  selectedPointIds := [newId]
                  selectedHandleType := none }
  else none

/-- `selectPoint(id, handleType, addToSelection)` from `EditorContext.tsx`. -/
def selectPoint (id : Option String) (handleType : Option HandleType)
    (addToSelection : Bool) (s : EditorState) : EditorState :=
  match id with
  | none => { s with selectedPointIds := [], selectedHandleType := none }
  | some pid =>
      if addToSelection then
        let newSelection :=
          if s.selectedPointIds.contains pid then
            s.selectedPointIds.filter (fun q => q ≠ pid)
          else s.selectedPointIds ++ [pid]
        { s with selectedPointIds := newSelection, selectedHandleType := handleType }
      else
        { s with selectedPointIds := [pid], selectedHandleType := handleType }

/-- `setSelectedPointIds(ids)` from `EditorContext.tsx`. -/
def setSelectedPointIds (ids : List String) (s : EditorState) : EditorState :=
  { s with selectedPointIds := ids, selectedHandleType := none }

/-- `movePoint(id, x, y)` from `EditorContext.tsx`: absolute move with clamp. -/
def movePoint (id : String) (x y : ℚ) (s : EditorState) : EditorState :=
  { s with points := s.points.map fun p =>
      if p.id = id then { p with x := clamp100 x, y := clamp100 y } else p }

/-- `moveSelectedPoints(deltaX, deltaY)` from `EditorContext.tsx`. -/
def moveSelectedPoints (deltaX deltaY : ℚ) (s : EditorState) : EditorState :=
  { s with points := s.points.map fun p =>
      if s.selectedPointIds.contains p.id then
        { p with x := clamp100 (p.x + deltaX), y := clamp100 (p.y + deltaY) }
      else p }

/-- `moveAllPoints(deltaX, deltaY)` from `EditorContext.tsx`. -/
def moveAllPoints (deltaX deltaY : ℚ) (s : EditorState) : EditorState :=
  { s with points := s.points.map fun p =>
      { p with x := clamp100 (p.x + deltaX), y := clamp100 (p.y + deltaY) } }

/-- `moveHandle(id, handleType, x, y, breakMirror)` from `EditorContext.tsx`:
sets the named handle; when the point is mirrored and the mirror is not being
broken, forces the opposite handle to `(-x, -y)`; when breaking, clears the
mirror flag and leaves the opposite handle alone. -/
def moveHandle (id : String) (handleType : HandleType) (x y : ℚ)
    (breakMirror : Bool) (s : EditorState) : EditorState :=
  { s with points := s.points.map fun p =>
      if p.id ≠ id then p
      else
        let newHandle : V2 := ⟨x, y⟩
        if p.isMirrored && !breakMirror then
          let mirroredHandle : V2 := ⟨-x, -y⟩
          match handleType with
          | HandleType.hin => { p with handleIn := newHandle, handleOut := mirroredHandle }
          | HandleType.hout => { p with handleOut := newHandle, handleIn := mirroredHandle }
        else
          match handleType with
          | HandleType.hin =>
              { p with handleIn := newHandle
                       isMirrored := if breakMirror then false else p.isMirrored }
          | HandleType.hout =>
              { p with handleOut := newHandle
                       isMirrored := if breakMirror then false else p.isMirrored } }

/-- `deleteSelectedPoints()` from `EditorContext.tsx`: removes every selected
point, clears the selection, and re-opens the shape when the remaining count
drops below 3. No-op when nothing is selected. -/
def deleteSelectedPoints (s : EditorState) : EditorState :=
  if s.selectedPointIds = [] then s
  else
    let newPoints := s.points.filter fun p => !(s.selectedPointIds.contains p.id)
    { s with points := newPoints
             selectedPointIds := []
             selectedHandleType := none
             isClosed := if newPoints.length < 3 then false else s.isClosed }

/-- The "locking" rewrite of one selected point inside `toggleHandleMirror`:
handles become symmetric with the average of the two handle lengths, taking
the direction of the existing `handleOut` (recomputed as `dirLength`, the
same expression as `outLength`), or a default direction when that length is
at most `0.001`. -/
def lockPoint (sq : ℚ → ℚ) (p : Point) : Point :=
  let inLength := sq (p.handleIn.x * p.handleIn.x + p.handleIn.y * p.handleIn.y)
  let outLength := sq (p.handleOut.x * p.handleOut.x + p.handleOut.y * p.handleOut.y)
  let avgLength := (inLength + outLength) / 2
  let dirLength := sq (p.handleOut.x * p.handleOut.x + p.handleOut.y * p.handleOut.y)
  if 1 / 1000 < dirLength then
    let dX := p.handleOut.x / dirLength * avgLength
    let dY := p.handleOut.y / dirLength * avgLength
    { p with handleIn := ⟨-dX, -dY⟩, handleOut := ⟨dX, dY⟩, isMirrored := true }
  else
    let dX := if 0 < avgLength then avgLength else 5
    { p with handleIn := ⟨-dX, -0⟩, handleOut := ⟨dX, 0⟩, isMirrored := true }

/-- `toggleHandleMirror()` from `EditorContext.tsx`. The source computes
`anyMirrored = selectedPoints.some(p => p.isMirrored)` and locks (rewrites
handles symmetric with average length) only when `anyMirrored` is false,
otherwise unlocks (clears flags, keeps handles). -/
def toggleHandleMirror (sq : ℚ → ℚ) (s : EditorState) : EditorState :=
  let selectedPoints := s.points.filter fun p => s.selectedPointIds.contains p.id
  if selectedPoints.length = 0 then s
  else
    let anyMirrored := selectedPoints.any fun p => p.isMirrored
    let shouldMirror := !anyMirrored
    { s with points := s.points.map fun p =>
        if !(s.selectedPointIds.contains p.id) then p
        else if shouldMirror then lockPoint sq p
        else { p with isMirrored := false } }

/-- `closeShape()` from `EditorContext.tsx`: sets `isClosed` unconditionally
(no point-count guard), switches to the select tool, clears the selection. -/
def closeShape (s : EditorState) : EditorState :=
  { s with isClosed := true
           tool := Tool.select
           selectedPointIds := []
           selectedHandleType := none }

/-- `openShape()` from `EditorContext.tsx`. -/
def openShape (s : EditorState) : EditorState :=
  { s with isClosed := false }

/-- `setIsClosed(isClosed)` from `EditorContext.tsx`: unconditional write. -/
def setIsClosed (isClosed : Bool) (s : EditorState) : EditorState :=
  { s with isClosed := isClosed }

/-- `setPoints(points)` from `EditorContext.tsx`. -/
def setPoints (points : List Point) (s : EditorState) : EditorState :=
  { s with points := points }

-- ---------------------------------------------------------------------------
-- Geometry kernel (utils/bezier.ts)
-- ---------------------------------------------------------------------------

/-- `bezierPoint(p0, p1, p2, p3, t)` from `utils/bezier.ts`: Bernstein-basis
evaluation of a cubic bezier. -/
def bezierPoint (p0 p1 p2 p3 : V2) (t : ℚ) : V2 :=
  let mt := 1 - t
  let mt2 := mt * mt
  let mt3 := mt2 * mt
  let t2 := t * t
  let t3 := t2 * t
  ⟨mt3 * p0.x + 3 * mt2 * t * p1.x + 3 * mt * t2 * p2.x + t3 * p3.x,
   mt3 * p0.y + 3 * mt2 * t * p1.y + 3 * mt * t2 * p2.y + t3 * p3.y⟩

/-- A full cubic segment, the `{p0, p1, p2, p3}` records returned by
`splitBezier`. -/
structure Cubic where
  p0 : V2
  p1 : V2
  p2 : V2
  p3 : V2
deriving DecidableEq

/-- Linear interpolation step of de Casteljau, `a + (b - a) * t` pointwise. -/
def lerpV2 (a b : V2) (t : ℚ) : V2 :=
  ⟨a.x + (b.x - a.x) * t, a.y + (b.y - a.y) * t⟩

/-- `splitBezier(p0, p1, p2, p3, t)` from `utils/bezier.ts`: de Casteljau
subdivision into `left` and `right` cubic segments. -/
def splitBezier (p0 p1 p2 p3 : V2) (t : ℚ) : Cubic × Cubic :=
  let p01 := lerpV2 p0 p1 t
  let p12 := lerpV2 p1 p2 t
  let p23 := lerpV2 p2 p3 t
  let p012 := lerpV2 p01 p12 t
  let p123 := lerpV2 p12 p23 t
  let p0123 := lerpV2 p012 p123 t
  (⟨p0, p01, p012, p0123⟩, ⟨p0123, p123, p23, p3⟩)

-- ---------------------------------------------------------------------------
-- Path Model (Canvas component's generatePathD and utils/pathGenerator.ts)
-- ---------------------------------------------------------------------------

/-- Percentage-to-pixel conversion of one point together with its absolute
handle positions (the `toAbs` / `toPixels` helper of the path builders). -/
structure AbsPoint where
  x : ℚ
  y : ℚ
  handleInX : ℚ
  handleInY : ℚ
  handleOutX : ℚ
  handleOutY : ℚ
deriving DecidableEq

/-- The `toAbs(p)` helper: `(p.x / 100) * width` and friends. -/
def toAbs (width height : ℚ) (p : Point) : AbsPoint :=
  { x := p.x / 100 * width
    y := p.y / 100 * height
    handleInX := (p.x + p.handleIn.x) / 100 * width
    handleInY := (p.y + p.handleIn.y) / 100 * height
    handleOutX := (p.x + p.handleOut.x) / 100 * width
    handleOutY := (p.y + p.handleOut.y) / 100 * height }

/-- One `" C cx1 cy1, cx2 cy2, x y"` command for the segment from `prev` to
`curr`, as appended by the loop body of `generatePathD`. -/
def cSeg (fmt : ℚ → String) (width height : ℚ) (prev curr : Point) : String :=
  let prevA := toAbs width height prev
  let currA := toAbs width height curr
  " C " ++ fmt prevA.handleOutX ++ " " ++ fmt prevA.handleOutY ++ ", " ++
    fmt currA.handleInX ++ " " ++ fmt currA.handleInY ++ ", " ++
    fmt currA.x ++ " " ++ fmt currA.y

/-- The closing `" C ... Z"` text appended when the shape is closed: a cubic
from the last point back to the first, then `" Z"`. -/
def closeSeg (fmt : ℚ → String) (width height : ℚ) (last first : Point) : String :=
  let lastA := toAbs width height last
  let firstA := toAbs width height first
  " C " ++ fmt lastA.handleOutX ++ " " ++ fmt lastA.handleOutY ++ ", " ++
    fmt firstA.handleInX ++ " " ++ fmt firstA.handleInY ++ ", " ++
    fmt firstA.x ++ " " ++ fmt firstA.y ++ " Z"

/-- `generatePathD(points, width, height, isClosed)` from the Canvas component:
empty string below 2 points, otherwise `M first` plus one `C` per adjacent
pair (the `for i in 1..` loop folded over the list), closing back to the first
point with `Z` only when `isClosed`. `fmt` stands for JS number printing. -/
def generatePathD (fmt : ℚ → String) (points : List Point) (width height : ℚ)
    (isClosed : Bool) : String :=
  match points with
  | [] => ""
  | first :: rest =>
    if rest.length = 0 then ""
    else
      let firstA := toAbs width height first
      let start := "M " ++ fmt firstA.x ++ " " ++ fmt firstA.y
      let d := (points.zip rest).foldl
        (fun acc pc => acc ++ cSeg fmt width height pc.1 pc.2) start
      if isClosed then
        d ++ closeSeg fmt width height (points.getLastD first) first
      else d

/-- The apostrophe character used by `path('...')`, kept out of string
literals. -/
def quoteChar : String := String.mk [Char.ofNat 39]

/-- `generateClipPathCssPixels(points, width, height)` from
`utils/pathGenerator.ts`: returns `"none"` below 2 points and otherwise wraps
an always-closed pixel-space path (the source appends the closing `C` and `Z`
unconditionally and takes no `isClosed` parameter). `fmt` stands for the
source's `toFixed(2)` formatting. -/
def generateClipPathCssPixels (fmt : ℚ → String) (points : List Point)
    (width height : ℚ) : String :=
  match points with
  | [] => "none"
  | first :: rest =>
    if rest.length = 0 then "none"
    else
      let firstA := toAbs width height first
      let start := "M " ++ fmt firstA.x ++ " " ++ fmt firstA.y
      let d := (points.zip rest).foldl
        (fun acc pc => acc ++ cSeg fmt width height pc.1 pc.2) start
      let d := d ++ closeSeg fmt width height (points.getLastD first) first
      "path(" ++ quoteChar ++ d ++ quoteChar ++ ")"

-- ---------------------------------------------------------------------------
-- History manager (EditorContext.tsx: implicit snapshotting, drag
-- bracketing, undo/redo)
-- ---------------------------------------------------------------------------

/-- A history snapshot `{points, isClosed}`. -/
structure HistoryEntry where
  points : List Point
  isClosed : Bool
deriving DecidableEq

/-- The `{past, present, future}` triple. -/
structure HistoryState where
  past : List HistoryEntry
  present : HistoryEntry
  future : List HistoryEntry
deriving DecidableEq

/-- The serialized comparison key: `JSON.stringify({points, isClosed})`
equality is value equality of the snapshot. -/
def mkEntry (s : EditorState) : HistoryEntry := ⟨s.points, s.isClosed⟩

/-- JS `array.slice(-50)`: the last 50 elements. -/
def sliceLast50 (l : List HistoryEntry) : List HistoryEntry :=
  l.drop (l.length - 50)

/-- The combined component state: editor state, history, and the refs
`isUndoRedo`, `isDragging`, `dragStartState`. -/
structure App where
  editor : EditorState
  history : HistoryState
  isUndoRedo : Bool
  isDragging : Bool
  dragStart : Option HistoryEntry
deriving DecidableEq

/-- The implicit-snapshot `useEffect` on `[state.points, state.isClosed]`:
skips (clearing the flag) after an undo/redo adoption, skips during a drag,
skips when the serialized state equals `present`, otherwise pushes `present`
onto `past` (capped at 50), adopts the new state, and clears `future`. -/
def snapshotEffect (a : App) : App :=
  if a.isUndoRedo then { a with isUndoRedo := false }
  else if a.isDragging then a
  else if mkEntry a.editor = a.history.present then a
  else
    { a with history :=
        { past := sliceLast50 (a.history.past ++ [a.history.present])
          present := mkEntry a.editor
          future := [] } }

/-- `startDrag()`: records the gesture-start snapshot and raises the drag
flag. -/
def startDragApp (a : App) : App :=
  { a with isDragging := true, dragStart := some (mkEntry a.editor) }

/-- `endDrag()`: when a drag was in progress and the state changed since its
start, pushes the start snapshot onto `past` (capped at 50), adopts the end
state as `present` and clears `future`; always lowers the drag flag and drops
the start snapshot. -/
def endDragApp (a : App) : App :=
  let a' :=
    match a.dragStart with
    | some d =>
        if a.isDragging then
          if mkEntry a.editor ≠ d then
            { a with history :=
                { past := sliceLast50 (a.history.past ++ [d])
                  present := mkEntry a.editor
                  future := [] } }
          else a
        else a
    | none => a
  { a' with isDragging := false, dragStart := none }

/-- `undo()`: no-op when `past` is empty; otherwise pops the last `past`
entry into `present`, pushes the old `present` onto the front of `future`,
adopts the popped snapshot into the editor state with the `isUndoRedo` guard
raised, after which the snapshot effect consumes the guard. -/
def undoApp (a : App) : App :=
  match a.history.past.getLast? with
  | none => a
  | some previous =>
      snapshotEffect
        { a with
          editor := { a.editor with points := previous.points, isClosed := previous.isClosed }
          history :=
            { past := a.history.past.dropLast
              present := previous
              future := a.history.present :: a.history.future }
          isUndoRedo := true }

/-- `redo()`: symmetric to `undo` on the `future` stack. -/
def redoApp (a : App) : App :=
  match a.history.future with
  | [] => a
  | next :: newFuture =>
      snapshotEffect
        { a with
          editor := { a.editor with points := next.points, isClosed := next.isClosed }
          history :=
            { past := a.history.past ++ [a.history.present]
              present := next
              future := newFuture }
          isUndoRedo := true }

/-- The point/shape mutation calls that can occur inside a drag gesture (the
history calls `undo`, `redo`, `startDrag`, `endDrag` are separate). -/
inductive MutOp where
  | addPoint (sq : ℚ → ℚ) (newId : String) (x y : ℚ)
  | insertPoint (newId : String) (index : ℕ) (x y : ℚ)
      (handleIn handleOut prevPointHandleOut nextPointHandleIn : V2)
  | selectPoint (id : Option String) (handleType : Option HandleType) (addToSelection : Bool)
  | setSelectedPointIds (ids : List String)
  | movePoint (id : String) (x y : ℚ)
  | moveSelectedPoints (deltaX deltaY : ℚ)
  | moveAllPoints (deltaX deltaY : ℚ)
  | moveHandle (id : String) (handleType : HandleType) (x y : ℚ) (breakMirror : Bool)
  | deleteSelectedPoints
  | toggleHandleMirror (sq : ℚ → ℚ)
  | closeShape
  | openShape
  | setIsClosed (b : Bool)
  | setPoints (ps : List Point)

/-- Apply a mutation to the editor state alone. For `insertPoint`, the
untranslatable empty-list outcome is mapped to the unchanged state (callers
only invoke it on a hit segment, which needs at least 2 points). -/
def applyEditorOp (op : MutOp) (s : EditorState) : EditorState :=
  match op with
  | MutOp.addPoint sq newId x y => addPoint sq newId x y s
  | MutOp.insertPoint newId index x y hIn hOut pOut nIn =>
      (insertPoint newId index x y hIn hOut pOut nIn s).getD s
  | MutOp.selectPoint id ht add => selectPoint id ht add s
  | MutOp.setSelectedPointIds ids => setSelectedPointIds ids s
  | MutOp.movePoint id x y => movePoint id x y s
  | MutOp.moveSelectedPoints dx dy => moveSelectedPoints dx dy s
  | MutOp.moveAllPoints dx dy => moveAllPoints dx dy s
  | MutOp.moveHandle id ht x y b => moveHandle id ht x y b s
  | MutOp.deleteSelectedPoints => deleteSelectedPoints s
  | MutOp.toggleHandleMirror sq => toggleHandleMirror sq s
  | MutOp.closeShape => closeShape s
  | MutOp.openShape => openShape s
  | MutOp.setIsClosed b => setIsClosed b s
  | MutOp.setPoints ps => setPoints ps s

/-- A mutation call as seen by the whole component: the state update commits
and then the implicit-snapshot effect runs. -/
def applyMutOp (op : MutOp) (a : App) : App :=
  snapshotEffect { a with editor := applyEditorOp op a.editor }

/-- Run a sequence of mutation calls. -/
def runOps (ops : List MutOp) (a : App) : App :=
  ops.foldl (fun b op => applyMutOp op b) a

-- ---------------------------------------------------------------------------
-- Reachability through the public mutation operations
-- ---------------------------------------------------------------------------

/-- Editor states reachable from the initial state through the public
mutation operations named by the data-model invariant. -/
inductive Reach : EditorState → Prop where
  | init : Reach initialEditorState
  | addPoint (s : EditorState) (sq : ℚ → ℚ) (newId : String) (x y : ℚ) :
      Reach s → Reach (addPoint sq newId x y s)
  | insertPoint (s s' : EditorState) (newId : String) (index : ℕ) (x y : ℚ)
      (hIn hOut pOut nIn : V2) :
      Reach s → insertPoint newId index x y hIn hOut pOut nIn s = some s' → Reach s'
  | deleteSelectedPoints (s : EditorState) : Reach s → Reach (deleteSelectedPoints s)
  | closeShape (s : EditorState) : Reach s → Reach (closeShape s)
  | openShape (s : EditorState) : Reach s → Reach (openShape s)
  | setIsClosed (s : EditorState) (b : Bool) : Reach s → Reach (setIsClosed b s)
  | movePoint (s : EditorState) (id : String) (x y : ℚ) :
      Reach s → Reach (movePoint id x y s)
  | moveSelectedPoints (s : EditorState) (dx dy : ℚ) :
      Reach s → Reach (moveSelectedPoints dx dy s)
  | moveAllPoints (s : EditorState) (dx dy : ℚ) :
      Reach s → Reach (moveAllPoints dx dy s)
  | moveHandle (s : EditorState) (id : String) (ht : HandleType) (x y : ℚ) (b : Bool) :
      Reach s → Reach (moveHandle id ht x y b s)

-- ---------------------------------------------------------------------------
-- Helper lemmas and witness fixtures
-- ---------------------------------------------------------------------------

/-- A point with the default handles, used to build concrete states. -/
def mkPt (id : String) (x y : ℚ) (m : Bool) : Point :=
  ⟨id, x, y, ⟨-5, 0⟩, ⟨5, 0⟩, m⟩

theorem V2.ext2 {a b : V2} (hx : a.x = b.x) (hy : a.y = b.y) : a = b := by
  cases a; cases b; cases hx; cases hy; rfl

theorem sliceLast50_of_le {l : List HistoryEntry} (h : l.length ≤ 50) :
    sliceLast50 l = l := by
  unfold sliceLast50
  rw [Nat.sub_eq_zero_of_le h, List.drop_zero]

-- ---------------------------------------------------------------------------
-- C9: de Casteljau subdivision is exact
-- ---------------------------------------------------------------------------

/-- C9: for all control points and `t ∈ (0,1)`, `splitBezier` returns cubic
segments with `left.p0 = p0`, `right.p3 = p3`, shared endpoint
`left.p3 = right.p0` equal to the curve at `t`, and for every `s ∈ [0,1]` the
left cubic at `s` equals the original at `t*s` and the right cubic at `s`
equals the original at `t + (1-t)*s` — the concatenation reproduces the
original curve exactly over rational arithmetic. -/
theorem splitBezier_exact (p0 p1 p2 p3 : V2) (t s : ℚ)
    (ht0 : 0 < t) (ht1 : t < 1) (hs0 : 0 ≤ s) (hs1 : s ≤ 1) :
    (splitBezier p0 p1 p2 p3 t).1.p0 = p0 ∧
    (splitBezier p0 p1 p2 p3 t).2.p3 = p3 ∧
    (splitBezier p0 p1 p2 p3 t).1.p3 = (splitBezier p0 p1 p2 p3 t).2.p0 ∧
    (splitBezier p0 p1 p2 p3 t).1.p3 = bezierPoint p0 p1 p2 p3 t ∧
    bezierPoint (splitBezier p0 p1 p2 p3 t).1.p0 (splitBezier p0 p1 p2 p3 t).1.p1
        (splitBezier p0 p1 p2 p3 t).1.p2 (splitBezier p0 p1 p2 p3 t).1.p3 s =
      bezierPoint p0 p1 p2 p3 (t * s) ∧
    bezierPoint (splitBezier p0 p1 p2 p3 t).2.p0 (splitBezier p0 p1 p2 p3 t).2.p1
        (splitBezier p0 p1 p2 p3 t).2.p2 (splitBezier p0 p1 p2 p3 t).2.p3 s =
      bezierPoint p0 p1 p2 p3 (t + (1 - t) * s) := by
  refine ⟨rfl, rfl, rfl, ?_, ?_, ?_⟩ <;>
    exact V2.ext2 (by simp only [splitBezier, bezierPoint, lerpV2]; ring)
      (by simp only [splitBezier, bezierPoint, lerpV2]; ring)

/-- Witness for C9 at `t = 1/2`, `s = 1/2` on a concrete curve. -/
theorem splitBezier_exact_witness :
    bezierPoint (splitBezier ⟨0, 0⟩ ⟨1, 2⟩ ⟨3, 2⟩ ⟨4, 0⟩ (1/2)).1.p0
        (splitBezier ⟨0, 0⟩ ⟨1, 2⟩ ⟨3, 2⟩ ⟨4, 0⟩ (1/2)).1.p1
        (splitBezier ⟨0, 0⟩ ⟨1, 2⟩ ⟨3, 2⟩ ⟨4, 0⟩ (1/2)).1.p2
        (splitBezier ⟨0, 0⟩ ⟨1, 2⟩ ⟨3, 2⟩ ⟨4, 0⟩ (1/2)).1.p3 (1/2) =
      bezierPoint ⟨0, 0⟩ ⟨1, 2⟩ ⟨3, 2⟩ ⟨4, 0⟩ (1/2 * (1/2)) :=
  (splitBezier_exact ⟨0, 0⟩ ⟨1, 2⟩ ⟨3, 2⟩ ⟨4, 0⟩ (1/2) (1/2)
    (by norm_num) (by norm_num) (by norm_num) (by norm_num)).2.2.2.2.1

-- ---------------------------------------------------------------------------
-- C1: the closed-shape minimum-count invariant
-- ---------------------------------------------------------------------------

/-- C1 counterexample: `closeShape` has no point-count guard, so a state with
`closed = true` and zero points is reachable through the public mutation
operations in one step from the initial state. -/
theorem closed_invariant_counterexample :
    Reach (closeShape initialEditorState) ∧
    (closeShape initialEditorState).isClosed = true ∧
    (closeShape initialEditorState).points.length = 0 :=
  ⟨Reach.closeShape initialEditorState Reach.init, rfl, rfl⟩

/-- C1 amended: the deletion clause of the invariant does hold — whenever
`deleteSelectedPoints` runs with a non-empty selection and the remaining
count is below 3 it sets `closed = false` in the same operation. (The full
reachability invariant fails because `closeShape`/`setIsClosed` set the flag
unconditionally.) -/
theorem deleteSelectedPoints_reopens (s : EditorState)
    (hsel : s.selectedPointIds ≠ [])
    (hlen : (deleteSelectedPoints s).points.length < 3) :
    (deleteSelectedPoints s).isClosed = false := by
  unfold deleteSelectedPoints at hlen ⊢
  rw [if_neg hsel] at hlen ⊢
  simp only at hlen ⊢
  rw [if_pos hlen]

/-- Witness for C1's amended theorem: deleting two selected points of a
closed triangle-less shape forces `closed = false`. -/
theorem deleteSelectedPoints_reopens_witness :
    (deleteSelectedPoints
      { initialEditorState with
          points := [mkPt "a" 0 0 true, mkPt "b" 50 0 true, mkPt "c" 50 50 true]
          selectedPointIds := ["a", "b"]
          isClosed := true }).isClosed = false :=
  deleteSelectedPoints_reopens
    { initialEditorState with
        points := [mkPt "a" 0 0 true, mkPt "b" 50 0 true, mkPt "c" 50 50 true]
        selectedPointIds := ["a", "b"]
        isClosed := true }
    (by decide) (by decide)

-- ---------------------------------------------------------------------------
-- C7: generateClipPathCssPixels ignores closedness
-- ---------------------------------------------------------------------------

theorem pathWrap_ne_none (d : String) :
    "path(" ++ quoteChar ++ d ++ quoteChar ++ ")" ≠ "none" := by
  intro h
  have hl := congrArg String.length h
  simp only [String.length_append] at hl
  have h1 : ("path(" : String).length = 5 := rfl
  have h2 : quoteChar.length = 1 := rfl
  have h3 : (")" : String).length = 1 := rfl
  have h4 : ("none" : String).length = 4 := rfl
  omega

/-- C7, code evaluated at the failing input: on an open two-point shape the
3-parameter `generateClipPathCssPixels` still returns a `path(...)` string —
it has no `isClosed` parameter at all, although its caller `Editor.tsx`
passes `state.isClosed` as a fourth argument and comments that the clip path
is only for closed shapes. This holds for every number formatter `fmt`. -/
theorem generateClipPathCssPixels_open_not_none (fmt : ℚ → String) :
    generateClipPathCssPixels fmt [mkPt "a" 0 0 true, mkPt "b" 100 0 true]
      100 100 ≠ "none" := by
  show "path(" ++ quoteChar ++ _ ++ quoteChar ++ ")" ≠ "none"
  exact pathWrap_ne_none _

-- ---------------------------------------------------------------------------
-- C2: the mirrored-handle contract of moveHandle
-- ---------------------------------------------------------------------------

theorem getD_map_pt (f : Point → Point) (l : List Point) (i : ℕ)
    (h : i < l.length) (d : Point) :
    (l.map f).getD i d = f (l.getD i d) := by
  induction l generalizing i with
  | nil => exact absurd h (by simp)
  | cons p ps ih =>
      cases i with
      | zero => rfl
      | succ n => exact ih n (by simpa using h)

theorem getD_mem_pt (l : List Point) (m : ℕ) (d : Point) (h : m < l.length) :
    l.getD m d ∈ l := by
  rw [List.getD_eq_getElem l d h]
  exact List.getElem_mem h

theorem nodup_ids_ne (l : List Point) (h : (l.map Point.id).Nodup)
    (i j : ℕ) (hi : i < l.length) (hj : j < l.length) (hij : i ≠ j) (d : Point) :
    (l.getD i d).id ≠ (l.getD j d).id := by
  induction l generalizing i j with
  | nil => exact absurd hi (by simp)
  | cons p ps ih =>
      simp only [List.map_cons, List.nodup_cons] at h
      cases i with
      | zero =>
          cases j with
          | zero => exact absurd rfl hij
          | succ m =>
              intro hc
              exact h.1 (by
                rw [List.getD_cons_zero] at hc
                rw [hc, List.getD_cons_succ]
                exact List.mem_map_of_mem Point.id
                  (getD_mem_pt ps m d (by simpa using hj)))
      | succ n =>
          cases j with
          | zero =>
              intro hc
              exact h.1 (by
                rw [List.getD_cons_zero] at hc
                rw [← hc, List.getD_cons_succ]
                exact List.mem_map_of_mem Point.id
                  (getD_mem_pt ps n d (by simpa using hi)))
          | succ m =>
              exact ih h.2 n m (by simpa using hi) (by simpa using hj)
                (fun hc => hij (by rw [hc]))

/-- C2: moving a handle of a mirrored point with `breakMirror = false` sets
the named handle to `(x, y)`, forces the opposite handle to `(-x, -y)` (so
`handleOut = -handleIn` immediately afterwards), and leaves every other
point unchanged (point ids are assumed distinct, as the id generator
provides). -/
theorem moveHandle_mirrored_contract (s : EditorState) (i : ℕ)
    (hi : i < s.points.length)
    (hnd : (s.points.map Point.id).Nodup)
    (hm : (s.points.getD i default).isMirrored = true)
    (ht : HandleType) (x y : ℚ) :
    (moveHandle (s.points.getD i default).id ht x y false s).points.length
        = s.points.length ∧
    (ht = HandleType.hin →
      ((moveHandle (s.points.getD i default).id ht x y false s).points.getD i default).handleIn = ⟨x, y⟩ ∧
      ((moveHandle (s.points.getD i default).id ht x y false s).points.getD i default).handleOut = ⟨-x, -y⟩) ∧
    (ht = HandleType.hout →
      ((moveHandle (s.points.getD i default).id ht x y false s).points.getD i default).handleOut = ⟨x, y⟩ ∧
      ((moveHandle (s.points.getD i default).id ht x y false s).points.getD i default).handleIn = ⟨-x, -y⟩) ∧
    ((moveHandle (s.points.getD i default).id ht x y false s).points.getD i default).handleOut
        = V2.neg (((moveHandle (s.points.getD i default).id ht x y false s).points.getD i default).handleIn) ∧
    (∀ j : ℕ, j < s.points.length → j ≠ i →
      (moveHandle (s.points.getD i default).id ht x y false s).points.getD j default
        = s.points.getD j default) := by
  have hmap : (moveHandle (s.points.getD i default).id ht x y false s).points
      = s.points.map (fun p =>
          if p.id ≠ (s.points.getD i default).id then p
          else
            if p.isMirrored && !false then
              match ht with
              | HandleType.hin => { p with handleIn := ⟨x, y⟩, handleOut := ⟨-x, -y⟩ }
              | HandleType.hout => { p with handleOut := ⟨x, y⟩, handleIn := ⟨-x, -y⟩ }
            else
              match ht with
              | HandleType.hin => { p with handleIn := ⟨x, y⟩, isMirrored := p.isMirrored }
              | HandleType.hout => { p with handleOut := ⟨x, y⟩, isMirrored := p.isMirrored }) :=
    rfl
  have hlen : (moveHandle (s.points.getD i default).id ht x y false s).points.length
      = s.points.length := by
    rw [hmap, List.length_map]
  have hother : ∀ j : ℕ, j < s.points.length → j ≠ i →
      (moveHandle (s.points.getD i default).id ht x y false s).points.getD j default
        = s.points.getD j default := by
    intro j hj hij
    rw [hmap, getD_map_pt _ s.points j hj default]
    have hne := nodup_ids_ne s.points hnd j i hj hi hij default
    rw [if_pos hne]
  cases ht with
  | hin =>
      have hself :
          (moveHandle (s.points.getD i default).id HandleType.hin x y false s).points.getD i default
            = { s.points.getD i default with handleIn := ⟨x, y⟩, handleOut := ⟨-x, -y⟩ } := by
        rw [hmap, getD_map_pt _ s.points i hi default]
        rw [if_neg (fun hc => hc rfl), if_pos (by rw [hm]; rfl)]
      refine ⟨hlen, fun _ => ⟨?_, ?_⟩, fun h => HandleType.noConfusion h, ?_, hother⟩
      · rw [hself]
      · rw [hself]
      · rw [hself]
        rfl
  | hout =>
      have hself :
          (moveHandle (s.points.getD i default).id HandleType.hout x y false s).points.getD i default
            = { s.points.getD i default with handleOut := ⟨x, y⟩, handleIn := ⟨-x, -y⟩ } := by
        rw [hmap, getD_map_pt _ s.points i hi default]
        rw [if_neg (fun hc => hc rfl), if_pos (by rw [hm]; rfl)]
      refine ⟨hlen, fun h => HandleType.noConfusion h, fun _ => ⟨?_, ?_⟩, ?_, hother⟩
      · rw [hself]
      · rw [hself]
      · rw [hself]
        exact V2.ext2 (by simp [V2.neg]) (by simp [V2.neg])

/-- Witness for C2 on a concrete two-point state: dragging the out-handle of
the mirrored point `"a"` to `(7, 8)` forces its in-handle to `(-7, -8)` and
leaves point `"b"` untouched. -/
theorem moveHandle_mirrored_contract_witness :
    ((moveHandle "a" HandleType.hout 7 8 false
        { initialEditorState with
            points := [mkPt "a" 10 10 true, mkPt "b" 60 10 false] }).points.getD 0 default).handleIn
      = ⟨-7, -8⟩ ∧
    ((moveHandle "a" HandleType.hout 7 8 false
        { initialEditorState with
            points := [mkPt "a" 10 10 true, mkPt "b" 60 10 false] }).points.getD 1 default)
      = mkPt "b" 60 10 false := by
  have h := moveHandle_mirrored_contract
    { initialEditorState with points := [mkPt "a" 10 10 true, mkPt "b" 60 10 false] }
    0 (by decide) (by decide) (by decide) HandleType.hout 7 8
  exact ⟨(h.2.2.1 rfl).2, h.2.2.2.2 1 (by decide) (by decide)⟩

-- ---------------------------------------------------------------------------
-- C3: drag bracketing produces exactly one history entry per gesture
-- ---------------------------------------------------------------------------

theorem runOps_during_drag (ops : List MutOp) (a : App) (h : a.isDragging = true) :
    (runOps ops a).isDragging = true ∧ (runOps ops a).history = a.history ∧
    (runOps ops a).dragStart = a.dragStart := by
  induction ops generalizing a with
  | nil => exact ⟨h, rfl, rfl⟩
  | cons op ops ih =>
      rw [show runOps (op :: ops) a = runOps ops (applyMutOp op a) from rfl]
      have hstep : (applyMutOp op a).isDragging = true ∧
          (applyMutOp op a).history = a.history ∧
          (applyMutOp op a).dragStart = a.dragStart := by
        by_cases hu : a.isUndoRedo <;>
          simp [applyMutOp, snapshotEffect, hu, h]
      have h2 := ih (applyMutOp op a) hstep.1
      exact ⟨h2.1, h2.2.1.trans hstep.2.1, h2.2.2.trans hstep.2.2⟩

/-- C3: a gesture `startDrag(); mutations; endDrag()` never touches history at
any intermediate frame, and at `endDrag` appends exactly the start snapshot to
`past` (adopting the end state as `present` and clearing `future`) when the
`(points, closed)` state changed during the gesture, and leaves the history
unchanged when it did not. (`past` is assumed below its 50-entry cap, where
the source would otherwise also drop the oldest entry.) -/
theorem drag_bracketing (a : App) (ops : List MutOp)
    (hcap : a.history.past.length < 50) :
    (∀ pre suff : List MutOp, ops = pre ++ suff →
        (runOps pre (startDragApp a)).history = a.history) ∧
    (mkEntry (runOps ops (startDragApp a)).editor ≠ mkEntry a.editor →
        (endDragApp (runOps ops (startDragApp a))).history =
          { past := a.history.past ++ [mkEntry a.editor]
            present := mkEntry (runOps ops (startDragApp a)).editor
            future := [] }) ∧
    (mkEntry (runOps ops (startDragApp a)).editor = mkEntry a.editor →
        (endDragApp (runOps ops (startDragApp a))).history = a.history) := by
  have hstart : (startDragApp a).isDragging = true := rfl
  have hinv := runOps_during_drag ops (startDragApp a) hstart
  have hds : (runOps ops (startDragApp a)).dragStart = some (mkEntry a.editor) :=
    hinv.2.2.trans rfl
  have hh : (runOps ops (startDragApp a)).history = a.history := hinv.2.1.trans rfl
  have hle : (a.history.past ++ [mkEntry a.editor]).length ≤ 50 := by
    simp only [List.length_append, List.length_cons, List.length_nil]
    omega
  refine ⟨?_, ?_, ?_⟩
  · intro pre suff hsplit
    exact (runOps_during_drag pre (startDragApp a) hstart).2.1.trans rfl
  · intro hne
    simp only [endDragApp, hds, hinv.1, hh, ne_eq, hne, not_false_iff, if_true]
    rw [sliceLast50_of_le hle]
  · intro heq
    simp only [endDragApp, hds, hinv.1, hh, heq, ne_eq, not_true_eq_false, if_false]
    rw [ite_self]
    exact hh

/-- Concrete start state for the C3 witness: one selected point at (20, 20),
empty history past. -/
def dragWitnessApp : App :=
  { editor := { initialEditorState with
      points := [mkPt "a" 20 20 true], selectedPointIds := ["a"] }
    history := { past := [], present := ⟨[mkPt "a" 20 20 true], false⟩, future := [] }
    isUndoRedo := false
    isDragging := false
    dragStart := none }

/-- Witness for C3: a two-move drag on a selected point commits exactly one
entry, the start snapshot. -/
theorem drag_bracketing_witness :
    (endDragApp (runOps [MutOp.moveSelectedPoints 10 0, MutOp.moveSelectedPoints 0 5]
        (startDragApp dragWitnessApp))).history.past
      = [⟨[mkPt "a" 20 20 true], false⟩] := by
  have hne : mkEntry (runOps [MutOp.moveSelectedPoints 10 0, MutOp.moveSelectedPoints 0 5]
      (startDragApp dragWitnessApp)).editor ≠ mkEntry dragWitnessApp.editor := by
    norm_num [dragWitnessApp, runOps, applyMutOp, applyEditorOp, moveSelectedPoints,
      snapshotEffect, startDragApp, mkEntry, clamp100, jsMax, jsMin, mkPt,
      initialEditorState]
  have h := drag_bracketing dragWitnessApp
    [MutOp.moveSelectedPoints 10 0, MutOp.moveSelectedPoints 0 5]
    (by decide)
  rw [h.2.1 hne]
  rfl

-- ---------------------------------------------------------------------------
-- C4: undo is a no-op on empty past; undo then redo restores everything
-- ---------------------------------------------------------------------------

theorem redoApp_cons (a : App) (n : HistoryEntry) (f : List HistoryEntry)
    (h : a.history.future = n :: f) :
    redoApp a = snapshotEffect
      { a with
        editor := { a.editor with points := n.points, isClosed := n.isClosed }
        history :=
          { past := a.history.past ++ [a.history.present], present := n, future := f }
        isUndoRedo := true } := by
  unfold redoApp
  rw [h]

theorem snapshotEffect_undoRedo (a : App) (h : a.isUndoRedo = true) :
    snapshotEffect a = { a with isUndoRedo := false } := by
  simp [snapshotEffect, h]

/-- C4: `undo()` with an empty `past` changes neither the history nor the
path model; with a non-empty `past` (and the editor in sync with `present`,
as every committed state is), `undo()` followed by `redo()` restores the
whole component state — the `(past, present, future)` triple and the
editor's `(points, closed)` — exactly to the pre-undo state. -/
theorem undo_redo_roundtrip (a : App) :
    (a.history.past = [] → undoApp a = a) ∧
    (a.history.past ≠ [] → a.isUndoRedo = false →
      a.editor.points = a.history.present.points →
      a.editor.isClosed = a.history.present.isClosed →
      redoApp (undoApp a) = a) := by
  constructor
  · intro h
    unfold undoApp
    rw [h]
    rfl
  · intro hne hur hp hc
    have hgl : a.history.past.getLast? = some (a.history.past.getLast hne) :=
      List.getLast?_eq_getLast _ hne
    have h1 : undoApp a =
        { a with
          editor := { a.editor with
            points := (a.history.past.getLast hne).points
            isClosed := (a.history.past.getLast hne).isClosed }
          history :=
            { past := a.history.past.dropLast
              present := a.history.past.getLast hne
              future := a.history.present :: a.history.future }
          isUndoRedo := false } := by
      unfold undoApp
      rw [hgl]
      exact snapshotEffect_undoRedo _ rfl
    rw [h1, redoApp_cons _ a.history.present a.history.future rfl,
      snapshotEffect_undoRedo _ rfl]
    rw [List.dropLast_append_getLast hne, ← hp, ← hc, ← hur]

/-- Witness for C4: the no-op case on an empty history and the round trip on
a one-entry history. -/
theorem undo_redo_roundtrip_witness :
    undoApp
      { editor := initialEditorState
        history := { past := [], present := ⟨[], false⟩, future := [] }
        isUndoRedo := false, isDragging := false, dragStart := none } =
      { editor := initialEditorState
        history := { past := [], present := ⟨[], false⟩, future := [] }
        isUndoRedo := false, isDragging := false, dragStart := none } ∧
    redoApp (undoApp
      { editor := { initialEditorState with points := [mkPt "a" 1 1 true] }
        history := { past := [⟨[], false⟩]
                     present := ⟨[mkPt "a" 1 1 true], false⟩
                     future := [] }
        isUndoRedo := false, isDragging := false, dragStart := none }) =
      { editor := { initialEditorState with points := [mkPt "a" 1 1 true] }
        history := { past := [⟨[], false⟩]
                     present := ⟨[mkPt "a" 1 1 true], false⟩
                     future := [] }
        isUndoRedo := false, isDragging := false, dragStart := none } :=
  ⟨(undo_redo_roundtrip _).1 rfl,
   (undo_redo_roundtrip _).2 (by decide) rfl rfl rfl⟩

-- ---------------------------------------------------------------------------
-- C6: structure of the SVG path data built by generatePathD
-- ---------------------------------------------------------------------------

/-- Concatenation of a list of strings. -/
def strConcat : List String → String
  | [] => ""
  | s :: rest => s ++ strConcat rest

theorem foldl_append_strConcat (f : Point × Point → String)
    (l : List (Point × Point)) (init : String) :
    l.foldl (fun acc pc => acc ++ f pc) init = init ++ strConcat (l.map f) := by
  induction l generalizing init with
  | nil => simp [strConcat, String.append_empty]
  | cons p ps ih =>
      rw [List.foldl_cons, ih, List.map_cons,
        show strConcat (f p :: List.map f ps) = f p ++ strConcat (List.map f ps) from rfl,
        String.append_assoc]

/-- C6: below 2 points `generatePathD` returns the empty string; with 2 or
more points it returns the `M` command for the first point followed by
exactly one `C` command per adjacent pair of points (control points: previous
vertex plus its `handleOut`, current vertex plus its `handleIn`, in absolute
pixels), with the closing `C` segment back to the first point and the
trailing `Z` present if and only if the shape is closed. -/
theorem generatePathD_structure (fmt : ℚ → String) (points : List Point)
    (width height : ℚ) (isClosed : Bool) :
    (points.length < 2 → generatePathD fmt points width height isClosed = "") ∧
    (∀ first rest, points = first :: rest → rest ≠ [] →
      generatePathD fmt points width height isClosed =
        "M " ++ fmt (toAbs width height first).x ++ " " ++ fmt (toAbs width height first).y ++
          strConcat ((points.zip rest).map fun pc => cSeg fmt width height pc.1 pc.2) ++
          (if isClosed then closeSeg fmt width height (points.getLastD first) first else "")) := by
  constructor
  · intro hlt
    match points with
    | [] => rfl
    | [_] => rfl
    | p :: q :: rest => exact absurd hlt (by simp)
  · rintro first rest rfl hne
    show (if rest.length = 0 then ""
      else
        let firstA := toAbs width height first
        let start := "M " ++ fmt firstA.x ++ " " ++ fmt firstA.y
        let d := ((first :: rest).zip rest).foldl
          (fun acc pc => acc ++ cSeg fmt width height pc.1 pc.2) start
        if isClosed then
          d ++ closeSeg fmt width height ((first :: rest).getLastD first) first
        else d) = _
    rw [if_neg (by simpa using hne)]
    simp only []
    rw [foldl_append_strConcat]
    cases isClosed with
    | false => simp [String.append_empty, String.append_assoc]
    | true => simp [String.append_assoc]

/-- The constant formatter used by the C6 witness. -/
def constFmt : ℚ → String := fun _ => "0"

/-- Witness for C6 at an empty list and at a concrete open two-point list. -/
theorem generatePathD_structure_witness :
    generatePathD constFmt [] 1 1 true = "" ∧
    generatePathD constFmt [mkPt "a" 0 0 true, mkPt "b" 100 0 true] 100 100 false
      = "M " ++ constFmt (toAbs 100 100 (mkPt "a" 0 0 true)).x ++ " " ++
          constFmt (toAbs 100 100 (mkPt "a" 0 0 true)).y ++
          strConcat ((([mkPt "a" 0 0 true, mkPt "b" 100 0 true]).zip
              [mkPt "b" 100 0 true]).map fun pc => cSeg constFmt 100 100 pc.1 pc.2) ++
          (if false then
              closeSeg constFmt 100 100
                (([mkPt "a" 0 0 true, mkPt "b" 100 0 true]).getLastD (mkPt "a" 0 0 true))
                (mkPt "a" 0 0 true)
            else "") :=
  ⟨(generatePathD_structure constFmt [] 1 1 true).1 (by decide),
   (generatePathD_structure constFmt [mkPt "a" 0 0 true, mkPt "b" 100 0 true]
      100 100 false).2 (mkPt "a" 0 0 true) [mkPt "b" 100 0 true] rfl (by decide)⟩

-- ---------------------------------------------------------------------------
-- C8: insertPoint splicing and the missing empty-sequence guard
-- ---------------------------------------------------------------------------

theorem modifyAt_length (f : Point → Point) (i : ℕ) (l : List Point) :
    (modifyAt f i l).length = l.length := by
  induction l generalizing i with
  | nil => cases i <;> rfl
  | cons p ps ih =>
      cases i with
      | zero => rfl
      | succ n => simpa [modifyAt] using ih n

theorem getD_modifyAt_self (f : Point → Point) (i : ℕ) (l : List Point) (d : Point)
    (h : i < l.length) : (modifyAt f i l).getD i d = f (l.getD i d) := by
  induction l generalizing i with
  | nil => exact absurd h (by simp)
  | cons p ps ih =>
      cases i with
      | zero => rfl
      | succ n => exact ih n (by simpa using h)

theorem getD_modifyAt_ne (f : Point → Point) (i j : ℕ) (l : List Point) (d : Point)
    (h : j ≠ i) : (modifyAt f i l).getD j d = l.getD j d := by
  induction l generalizing i j with
  | nil => cases i <;> rfl
  | cons p ps ih =>
      cases i with
      | zero =>
          cases j with
          | zero => exact absurd rfl h
          | succ m => rfl
      | succ n =>
          cases j with
          | zero => rfl
          | succ m => exact ih n m (fun hc => h (by rw [hc]))

theorem getD_take_pt (l : List Point) (k j : ℕ) (d : Point) (hj : j < k) :
    (l.take k).getD j d = l.getD j d := by
  induction l generalizing k j with
  | nil => simp
  | cons p ps ih =>
      cases k with
      | zero => exact absurd hj (by omega)
      | succ n =>
          cases j with
          | zero => rfl
          | succ m => exact ih n m (by omega)

theorem getD_drop_pt (l : List Point) (k j : ℕ) (d : Point) (hk : k ≤ j) :
    (l.drop k).getD (j - k) d = l.getD j d := by
  induction l generalizing k j with
  | nil => simp
  | cons p ps ih =>
      cases k with
      | zero => simp
      | succ n =>
          cases j with
          | zero => exact absurd hk (by omega)
          | succ m =>
              rw [List.drop_succ_cons, List.getD_cons_succ, Nat.succ_sub_succ]
              exact ih n m (by omega)

theorem getD_splice_lt (l : List Point) (k j : ℕ) (np d : Point) (hj : j < k)
    (hk : k ≤ l.length) :
    (l.take k ++ np :: l.drop k).getD j d = l.getD j d := by
  rw [List.getD_append _ _ _ _ (by rw [List.length_take]; omega)]
  exact getD_take_pt l k j d hj

theorem getD_splice_self (l : List Point) (k : ℕ) (np d : Point) (hk : k ≤ l.length) :
    (l.take k ++ np :: l.drop k).getD k d = np := by
  rw [List.getD_append_right _ _ _ _ (by rw [List.length_take]; omega),
    List.length_take, Nat.min_eq_left hk, Nat.sub_self]
  rfl

theorem getD_splice_gt (l : List Point) (k j : ℕ) (np d : Point) (hj : k ≤ j)
    (hk : k ≤ l.length) :
    (l.take k ++ np :: l.drop k).getD (j + 1) d = l.getD j d := by
  rw [List.getD_append_right _ _ _ _ (by rw [List.length_take]; omega),
    List.length_take, Nat.min_eq_left hk]
  rw [show j + 1 - k = (j - k) + 1 by omega, List.getD_cons_succ]
  exact getD_drop_pt l k j d hj

/-- C8 counterexample: `insertPoint` on the empty point list does not return
the unchanged state — there is no guard, the JS index arithmetic is undefined
there (`(index+1) % 0` is `NaN` and spreading the missing neighbours makes
ill-typed array entries), modelled as `none`. -/
theorem insertPoint_empty_counterexample :
    insertPoint "n" 0 50 50 ⟨0, 0⟩ ⟨0, 0⟩ ⟨0, 0⟩ ⟨0, 0⟩ initialEditorState = none :=
  rfl

/-- C8 amended: with at least one existing point (a precondition the callers
establish; `insertPoint` itself has no guard) the operation inserts the new
unmirrored point right after `index`, overwrites `handleOut` of the point at
`index` and `handleIn` of the point at `(index+1) % length` (clearing both
mirror flags), and leaves every other point unchanged up to the positional
shift of the splice. -/
theorem insertPoint_spec (newId : String) (index : ℕ) (x y : ℚ)
    (hIn hOut pOut nIn : V2) (s : EditorState)
    (hidx : index < s.points.length) :
    ∃ s', insertPoint newId index x y hIn hOut pOut nIn s = some s' ∧
      s'.points.length = s.points.length + 1 ∧
      s'.points.getD (index + 1) default = ⟨newId, x, y, hIn, hOut, false⟩ ∧
      (s.points.length = 1 →
        s'.points.getD 0 default =
          { s.points.getD 0 default with
              handleOut := pOut, handleIn := nIn, isMirrored := false }) ∧
      (1 < s.points.length →
        s'.points.getD index default =
          { s.points.getD index default with handleOut := pOut, isMirrored := false }) ∧
      (1 < s.points.length →
        s'.points.getD (if index + 1 < s.points.length then index + 2 else 0) default =
          { s.points.getD ((index + 1) % s.points.length) default with
              handleIn := nIn, isMirrored := false }) ∧
      (∀ j : ℕ, j < s.points.length → j ≠ index → j ≠ (index + 1) % s.points.length →
        s'.points.getD (if j ≤ index then j else j + 1) default = s.points.getD j default) ∧
      s'.selectedPointIds = [newId] := by
  have hlen0 : 0 < s.points.length := by omega
  set n := s.points.length with hn
  set nextIndex := (index + 1) % n with hnext
  have hnextlt : nextIndex < n := Nat.mod_lt _ hlen0
  set fPrev : Point → Point :=
    fun p => { p with handleOut := pOut, isMirrored := false } with hfPrev
  set fNext : Point → Point :=
    fun p => { p with handleIn := nIn, isMirrored := false } with hfNext
  set pts1 := modifyAt fPrev index s.points with hpts1
  set pts2 := modifyAt fNext nextIndex pts1 with hpts2
  have hlen1 : pts1.length = n := modifyAt_length _ _ _
  have hlen2 : pts2.length = n := (modifyAt_length _ _ _).trans hlen1
  have hk : index + 1 ≤ pts2.length := by omega
  have hsome : insertPoint newId index x y hIn hOut pOut nIn s =
      some { s with
        points := pts2.take (index + 1) ++ (⟨newId, x, y, hIn, hOut, false⟩ : Point) ::
          pts2.drop (index + 1)
        selectedPointIds := [newId]
        selectedHandleType := none } := by
    unfold insertPoint
    rw [if_pos hidx]
  refine ⟨_, hsome, ?_, ?_, ?_, ?_, ?_, ?_, rfl⟩
  · simp only [List.length_append, List.length_cons, List.length_take, List.length_drop]
    omega
  · exact getD_splice_self pts2 (index + 1) _ default hk
  · intro h1
    have hidx0 : index = 0 := by omega
    have hnext0 : nextIndex = 0 := by
      rw [hnext, hidx0, h1]
    rw [getD_splice_lt pts2 (index + 1) 0 _ default (by omega) hk]
    rw [hpts2, hnext0, getD_modifyAt_self _ _ _ _ (by omega)]
    rw [hpts1, hidx0, getD_modifyAt_self _ _ _ _ (by omega)]
  · intro h1
    have hne : index ≠ nextIndex := by
      rcases Nat.lt_or_ge (index + 1) n with hlt | hge
      · rw [hnext, Nat.mod_eq_of_lt hlt]; omega
      · have : index + 1 = n := by omega
        rw [hnext, this, Nat.mod_self]; omega
    rw [getD_splice_lt pts2 (index + 1) index _ default (by omega) hk]
    rw [hpts2, getD_modifyAt_ne _ _ _ _ _ hne]
    rw [hpts1, getD_modifyAt_self _ _ _ _ hidx]
  · intro h1
    have hne : nextIndex ≠ index := by
      rcases Nat.lt_or_ge (index + 1) n with hlt | hge
      · rw [hnext, Nat.mod_eq_of_lt hlt]; omega
      · have : index + 1 = n := by omega
        rw [hnext, this, Nat.mod_self]; omega
    rcases Nat.lt_or_ge (index + 1) n with hlt | hge
    · rw [if_pos hlt]
      have hnexteq : nextIndex = index + 1 := by rw [hnext, Nat.mod_eq_of_lt hlt]
      rw [show index + 2 = (index + 1) + 1 from rfl,
        getD_splice_gt pts2 (index + 1) (index + 1) _ default (by omega) hk]
      rw [hpts2, hnexteq, getD_modifyAt_self _ _ _ _ (by omega)]
      rw [hpts1, getD_modifyAt_ne _ _ _ _ _ (by omega)]
    · have heq : index + 1 = n := by omega
      rw [if_neg (by omega)]
      have hnext0 : nextIndex = 0 := by rw [hnext, heq, Nat.mod_self]
      rw [getD_splice_lt pts2 (index + 1) 0 _ default (by omega) hk]
      rw [hpts2, hnext0, getD_modifyAt_self _ _ _ _ (by omega)]
      rw [hpts1, getD_modifyAt_ne _ _ _ _ _ (by rw [← hnext0]; exact hne)]
  · intro j hj hji hjnext
    have hgets : pts2.getD j default = s.points.getD j default := by
      rw [hpts2, getD_modifyAt_ne _ _ _ _ _ hjnext,
        hpts1, getD_modifyAt_ne _ _ _ _ _ hji]
    rcases le_or_lt j index with hle | hgt
    · rw [if_pos hle, getD_splice_lt pts2 (index + 1) j _ default (by omega) hk]
      exact hgets
    · rw [if_neg (by omega), getD_splice_gt pts2 (index + 1) j _ default (by omega) hk]
      exact hgets

/-- Witness for C8 on a concrete two-point list, splitting after index 0. -/
theorem insertPoint_spec_witness :
    ∃ s', insertPoint "n" 0 50 10 ⟨-1, 0⟩ ⟨1, 0⟩ ⟨2, 0⟩ ⟨-2, 0⟩
        { initialEditorState with points := [mkPt "a" 0 0 true, mkPt "b" 100 0 true] }
      = some s' ∧
      s'.points.length = 3 ∧
      s'.points.getD 1 default = ⟨"n", 50, 10, ⟨-1, 0⟩, ⟨1, 0⟩, false⟩ := by
  obtain ⟨s', heq, hlen, hnew, _, _, _, _, _⟩ :=
    insertPoint_spec "n" 0 50 10 ⟨-1, 0⟩ ⟨1, 0⟩ ⟨2, 0⟩ ⟨-2, 0⟩
      { initialEditorState with points := [mkPt "a" 0 0 true, mkPt "b" 100 0 true] }
      (by decide)
  exact ⟨s', heq, hlen, hnew⟩

-- ---------------------------------------------------------------------------
-- C5: toggleHandleMirror locks only when no selected point is mirrored
-- ---------------------------------------------------------------------------

/-- C5 counterexample: on a mixed selection (`"a"` mirrored, `"b"` not) the
claim predicts the lock action setting `isMirrored = true` on both; the code
computes `anyMirrored = true` and instead unlocks: both flags end up `false`
and the handle vectors are unchanged. -/
theorem toggleHandleMirror_counterexample :
    ((toggleHandleMirror (fun q => q)
        { initialEditorState with
            points := [mkPt "a" 10 10 true, ⟨"b", 20, 20, ⟨-1, 0⟩, ⟨2, 0⟩, false⟩]
            selectedPointIds := ["a", "b"] }).points.map Point.isMirrored
      = [false, false]) ∧
    ((toggleHandleMirror (fun q => q)
        { initialEditorState with
            points := [mkPt "a" 10 10 true, ⟨"b", 20, 20, ⟨-1, 0⟩, ⟨2, 0⟩, false⟩]
            selectedPointIds := ["a", "b"] }).points.map Point.handleOut
      = [⟨5, 0⟩, ⟨2, 0⟩]) :=
  ⟨rfl, rfl⟩

/-- C5 amended: when at least one *selected point* is mirrored (including
mixed selections), `toggleHandleMirror` only clears the flags of the selected
points and leaves every handle vector unchanged; only when *no* selected
point is mirrored does it rewrite every selected point via the locking
transformation, which sets `isMirrored = true`, makes the handles exact
opposites, and (for a non-degenerate `handleOut`, with an exact square root)
gives the new `handleOut` squared length equal to the square of the average
of the two previous handle lengths. -/
theorem toggleHandleMirror_amended (sq : ℚ → ℚ) (s : EditorState)
    (hsel : (s.points.filter fun p => s.selectedPointIds.contains p.id).length ≠ 0) :
    (((s.points.filter fun p => s.selectedPointIds.contains p.id).any fun p => p.isMirrored) = true →
      (toggleHandleMirror sq s).points = s.points.map fun p =>
        if s.selectedPointIds.contains p.id then { p with isMirrored := false } else p) ∧
    (((s.points.filter fun p => s.selectedPointIds.contains p.id).any fun p => p.isMirrored) = false →
      (toggleHandleMirror sq s).points = s.points.map fun p =>
        if s.selectedPointIds.contains p.id then lockPoint sq p else p) ∧
    (∀ p : Point, (lockPoint sq p).isMirrored = true ∧
      (lockPoint sq p).handleIn = V2.neg ((lockPoint sq p).handleOut)) ∧
    (∀ p : Point,
      GoodSqrt sq (p.handleOut.x * p.handleOut.x + p.handleOut.y * p.handleOut.y) →
      1 / 1000 < sq (p.handleOut.x * p.handleOut.x + p.handleOut.y * p.handleOut.y) →
      (lockPoint sq p).handleOut.x * (lockPoint sq p).handleOut.x +
          (lockPoint sq p).handleOut.y * (lockPoint sq p).handleOut.y =
        ((sq (p.handleIn.x * p.handleIn.x + p.handleIn.y * p.handleIn.y) +
            sq (p.handleOut.x * p.handleOut.x + p.handleOut.y * p.handleOut.y)) / 2) ^ 2) := by
  have hbody : toggleHandleMirror sq s =
      { s with points := s.points.map fun p =>
          if !(s.selectedPointIds.contains p.id) then p
          else if (!((s.points.filter fun p => s.selectedPointIds.contains p.id).any
              fun p => p.isMirrored)) then lockPoint sq p
          else { p with isMirrored := false } } := by
    unfold toggleHandleMirror
    rw [if_neg hsel]
  refine ⟨?_, ?_, ?_, ?_⟩
  · intro ha
    rw [hbody]
    show List.map _ s.points = List.map _ s.points
    apply List.map_congr_left
    intro p _
    rw [ha]
    by_cases hc : s.selectedPointIds.contains p.id <;> simp [hc]
  · intro ha
    rw [hbody]
    show List.map _ s.points = List.map _ s.points
    apply List.map_congr_left
    intro p _
    rw [ha]
    by_cases hc : s.selectedPointIds.contains p.id <;> simp [hc]
  · intro p
    unfold lockPoint
    by_cases hdir : 1 / 1000 <
        sq (p.handleOut.x * p.handleOut.x + p.handleOut.y * p.handleOut.y)
    · rw [if_pos hdir]
      exact ⟨rfl, rfl⟩
    · rw [if_neg hdir]
      exact ⟨rfl, rfl⟩
  · intro p hg hdir
    obtain ⟨hL0, hLL⟩ := hg
    have hLne : sq (p.handleOut.x * p.handleOut.x + p.handleOut.y * p.handleOut.y) ≠ 0 :=
      ne_of_gt (lt_trans (by norm_num) hdir)
    have hout : (lockPoint sq p).handleOut =
        ⟨p.handleOut.x / sq (p.handleOut.x * p.handleOut.x + p.handleOut.y * p.handleOut.y) *
            ((sq (p.handleIn.x * p.handleIn.x + p.handleIn.y * p.handleIn.y) +
              sq (p.handleOut.x * p.handleOut.x + p.handleOut.y * p.handleOut.y)) / 2),
          p.handleOut.y / sq (p.handleOut.x * p.handleOut.x + p.handleOut.y * p.handleOut.y) *
            ((sq (p.handleIn.x * p.handleIn.x + p.handleIn.y * p.handleIn.y) +
              sq (p.handleOut.x * p.handleOut.x + p.handleOut.y * p.handleOut.y)) / 2)⟩ := by
      unfold lockPoint
      rw [if_pos hdir]
    rw [hout]
    have hnz : p.handleOut.x * p.handleOut.x + p.handleOut.y * p.handleOut.y ≠ 0 := by
      rw [← hLL]
      exact mul_ne_zero hLne hLne
    set L := sq (p.handleOut.x * p.handleOut.x + p.handleOut.y * p.handleOut.y) with hLdef
    set A := (sq (p.handleIn.x * p.handleIn.x + p.handleIn.y * p.handleIn.y) + L) / 2 with hAdef
    show (p.handleOut.x / L * A) * (p.handleOut.x / L * A) +
        (p.handleOut.y / L * A) * (p.handleOut.y / L * A) = A ^ 2
    have e1 : (p.handleOut.x / L * A) * (p.handleOut.x / L * A) +
        (p.handleOut.y / L * A) * (p.handleOut.y / L * A) =
        (p.handleOut.x * p.handleOut.x + p.handleOut.y * p.handleOut.y) * (A * A) / (L * L) := by
      ring
    rw [e1, hLL, mul_div_cancel_left₀ _ hnz]
    ring

/-- Concrete states for the C5 witness: a mixed selection and an
all-unmirrored selection. -/
def mixSelState : EditorState :=
  { initialEditorState with
      points := [mkPt "a" 10 10 true, ⟨"b", 20, 20, ⟨-1, 0⟩, ⟨2, 0⟩, false⟩]
      selectedPointIds := ["a", "b"] }

/-- All-unmirrored two-point selection for the C5 witness's lock branch. -/
def noneMirroredState : EditorState :=
  { initialEditorState with
      points := [⟨"a", 10, 10, ⟨-3, -4⟩, ⟨3, 4⟩, false⟩, ⟨"b", 20, 20, ⟨-1, 0⟩, ⟨2, 0⟩, false⟩]
      selectedPointIds := ["a", "b"] }

/-- Witness for C5's amended theorem: the unlock branch fires on the mixed
selection and the lock branch fires when nothing is mirrored. -/
theorem toggleHandleMirror_amended_witness :
    ((toggleHandleMirror (fun q => q) mixSelState).points
      = mixSelState.points.map fun p =>
          if mixSelState.selectedPointIds.contains p.id then { p with isMirrored := false }
          else p) ∧
    ((toggleHandleMirror (fun q => q) noneMirroredState).points
      = noneMirroredState.points.map fun p =>
          if noneMirroredState.selectedPointIds.contains p.id then
            lockPoint (fun q => q) p
          else p) :=
  ⟨(toggleHandleMirror_amended (fun q => q) mixSelState (by decide)).1 (by decide),
   (toggleHandleMirror_amended (fun q => q) noneMirroredState (by decide)).2.1 (by decide)⟩

-- ---------------------------------------------------------------------------
-- C10: every point created by addPoint is mirrored with opposite handles
-- ---------------------------------------------------------------------------

/-- C10: the point appended by `addPoint` always has `isMirrored = true` and
`handleIn = -handleOut`: the defaults `{-5,0}/{5,0}` when there is no
previous point or the previous point is within 1 unit, and plus/minus the
unit direction from the previous point scaled to length 5 otherwise (its
squared length is 25, given an exact square root at the distance input). -/
theorem addPoint_mirrored_defaults (sq : ℚ → ℚ) (newId : String) (x y : ℚ)
    (s : EditorState)
    (hsq : ∀ prev, s.points.getLast? = some prev →
      GoodSqrt sq ((x - prev.x) * (x - prev.x) + (y - prev.y) * (y - prev.y))) :
    ∃ p', (addPoint sq newId x y s).points.getLast? = some p' ∧
      p'.id = newId ∧ p'.x = x ∧ p'.y = y ∧
      p'.isMirrored = true ∧
      p'.handleIn = V2.neg p'.handleOut ∧
      (s.points.getLast? = none → p'.handleIn = ⟨-5, 0⟩ ∧ p'.handleOut = ⟨5, 0⟩) ∧
      (∀ prev, s.points.getLast? = some prev →
        ((x - prev.x) * (x - prev.x) + (y - prev.y) * (y - prev.y) ≤ 1 →
          p'.handleIn = ⟨-5, 0⟩ ∧ p'.handleOut = ⟨5, 0⟩) ∧
        (1 < (x - prev.x) * (x - prev.x) + (y - prev.y) * (y - prev.y) →
          p'.handleOut =
            ⟨(x - prev.x) / sq ((x - prev.x) * (x - prev.x) + (y - prev.y) * (y - prev.y)) * 5,
             (y - prev.y) / sq ((x - prev.x) * (x - prev.x) + (y - prev.y) * (y - prev.y)) * 5⟩ ∧
          p'.handleOut.x * p'.handleOut.x + p'.handleOut.y * p'.handleOut.y = 25)) := by
  cases hlast : s.points.getLast? with
  | none =>
      have hred : addPoint sq newId x y s =
          { s with points := s.points ++ [⟨newId, x, y, ⟨-5, 0⟩, ⟨5, 0⟩, true⟩]
                   selectedPointIds := [newId]
                   selectedHandleType := none } := by
        unfold addPoint
        rw [hlast]
      refine ⟨⟨newId, x, y, ⟨-5, 0⟩, ⟨5, 0⟩, true⟩, ?_, rfl, rfl, rfl, rfl, ?_,
        fun _ => ⟨rfl, rfl⟩, fun prev hp => nomatch hp⟩
      · rw [hred]
        exact List.getLast?_concat _
      · exact V2.ext2 (by norm_num [V2.neg]) (by norm_num [V2.neg])
  | some prev =>
      obtain ⟨hL0, hLL⟩ := hsq prev hlast
      by_cases hgt : 1 < sq ((x - prev.x) * (x - prev.x) + (y - prev.y) * (y - prev.y))
      · have hred : addPoint sq newId x y s =
            { s with
              points := (s.points.dropLast ++
                  [{ prev with handleOut :=
                      ⟨(x - prev.x) / sq ((x - prev.x) * (x - prev.x) + (y - prev.y) * (y - prev.y)) * 5,
                       (y - prev.y) / sq ((x - prev.x) * (x - prev.x) + (y - prev.y) * (y - prev.y)) * 5⟩ }]) ++
                  [⟨newId, x, y,
                    ⟨-((x - prev.x) / sq ((x - prev.x) * (x - prev.x) + (y - prev.y) * (y - prev.y)) * 5),
                     -((y - prev.y) / sq ((x - prev.x) * (x - prev.x) + (y - prev.y) * (y - prev.y)) * 5)⟩,
                    ⟨(x - prev.x) / sq ((x - prev.x) * (x - prev.x) + (y - prev.y) * (y - prev.y)) * 5,
                     (y - prev.y) / sq ((x - prev.x) * (x - prev.x) + (y - prev.y) * (y - prev.y)) * 5⟩,
                    true⟩],
              selectedPointIds := [newId],
              selectedHandleType := none } := by
          unfold addPoint
          simp only [hlast]
          rw [if_pos hgt]
        have hd1 : 1 < (x - prev.x) * (x - prev.x) + (y - prev.y) * (y - prev.y) := by
          nlinarith [hL0, hLL, hgt]
        refine ⟨⟨newId, x, y,
            ⟨-((x - prev.x) / sq ((x - prev.x) * (x - prev.x) + (y - prev.y) * (y - prev.y)) * 5),
             -((y - prev.y) / sq ((x - prev.x) * (x - prev.x) + (y - prev.y) * (y - prev.y)) * 5)⟩,
            ⟨(x - prev.x) / sq ((x - prev.x) * (x - prev.x) + (y - prev.y) * (y - prev.y)) * 5,
             (y - prev.y) / sq ((x - prev.x) * (x - prev.x) + (y - prev.y) * (y - prev.y)) * 5⟩,
            true⟩, ?_, rfl, rfl, rfl, rfl, rfl, ?_, ?_⟩
        · rw [hred]
          exact List.getLast?_concat _
        · exact fun hp => nomatch hp
        · intro prev' hp'
          injection hp' with hpe
          subst hpe
          refine ⟨fun hle => absurd hd1 (not_lt.mpr hle), fun _ => ⟨rfl, ?_⟩⟩
          have hLne : sq ((x - prev.x) * (x - prev.x) + (y - prev.y) * (y - prev.y)) ≠ 0 := by
            intro h0
            rw [h0] at hgt
            norm_num at hgt
          have hnz : (x - prev.x) * (x - prev.x) + (y - prev.y) * (y - prev.y) ≠ 0 := by
            rw [← hLL]
            exact mul_ne_zero hLne hLne
          show ((x - prev.x) / sq ((x - prev.x) * (x - prev.x) + (y - prev.y) * (y - prev.y)) * 5) *
              ((x - prev.x) / sq ((x - prev.x) * (x - prev.x) + (y - prev.y) * (y - prev.y)) * 5) +
              ((y - prev.y) / sq ((x - prev.x) * (x - prev.x) + (y - prev.y) * (y - prev.y)) * 5) *
              ((y - prev.y) / sq ((x - prev.x) * (x - prev.x) + (y - prev.y) * (y - prev.y)) * 5) = 25
          have e1 : ((x - prev.x) / sq ((x - prev.x) * (x - prev.x) + (y - prev.y) * (y - prev.y)) * 5) *
              ((x - prev.x) / sq ((x - prev.x) * (x - prev.x) + (y - prev.y) * (y - prev.y)) * 5) +
              ((y - prev.y) / sq ((x - prev.x) * (x - prev.x) + (y - prev.y) * (y - prev.y)) * 5) *
              ((y - prev.y) / sq ((x - prev.x) * (x - prev.x) + (y - prev.y) * (y - prev.y)) * 5) =
              ((x - prev.x) * (x - prev.x) + (y - prev.y) * (y - prev.y)) * 25 /
                (sq ((x - prev.x) * (x - prev.x) + (y - prev.y) * (y - prev.y)) *
                  sq ((x - prev.x) * (x - prev.x) + (y - prev.y) * (y - prev.y))) := by
            ring
          rw [e1, hLL, mul_div_cancel_left₀ _ hnz]
      · have hred : addPoint sq newId x y s =
            { s with points := s.points ++ [⟨newId, x, y, ⟨-5, 0⟩, ⟨5, 0⟩, true⟩],
                     selectedPointIds := [newId],
                     selectedHandleType := none } := by
          unfold addPoint
          simp only [hlast]
          rw [if_neg hgt]
        refine ⟨⟨newId, x, y, ⟨-5, 0⟩, ⟨5, 0⟩, true⟩, ?_, rfl, rfl, rfl, rfl, ?_, ?_, ?_⟩
        · rw [hred]
          exact List.getLast?_concat _
        · exact V2.ext2 (by norm_num [V2.neg]) (by norm_num [V2.neg])
        · exact fun hp => nomatch hp
        · intro prev' hp'
          injection hp' with hpe
          subst hpe
          refine ⟨fun _ => ⟨rfl, rfl⟩, fun hd1 => ?_⟩
          have hle : (x - prev.x) * (x - prev.x) + (y - prev.y) * (y - prev.y) ≤ 1 := by
            nlinarith [hL0, hLL, not_lt.mp hgt]
          exact absurd hd1 (not_lt.mpr hle)

/-- The exact square root at 25, used by the C10 witness. -/
def sqrt25 : ℚ → ℚ := fun q => if q = 25 then 5 else 0

/-- Witness for C10: adding a point at (3, 4) after a previous point at the
origin (distance 5 > 1) yields a mirrored point with opposite handles of
squared length 25. -/
theorem addPoint_mirrored_defaults_witness :
    ∃ p', (addPoint sqrt25 "w" 3 4
        { initialEditorState with points := [mkPt "p0" 0 0 true] }).points.getLast? = some p' ∧
      p'.isMirrored = true ∧
      p'.handleIn = V2.neg p'.handleOut ∧
      p'.handleOut.x * p'.handleOut.x + p'.handleOut.y * p'.handleOut.y = 25 := by
  obtain ⟨p', hlast, _, _, _, hmir, hneg, _, hsome⟩ :=
    addPoint_mirrored_defaults sqrt25 "w" 3 4
      { initialEditorState with points := [mkPt "p0" 0 0 true] }
      (by
        intro prev hp
        injection hp with hpe
        subst hpe
        constructor
        · show (0 : ℚ) ≤ sqrt25 _
          norm_num [sqrt25, mkPt]
        · show sqrt25 _ * sqrt25 _ = _
          norm_num [sqrt25, mkPt])
  refine ⟨p', hlast, hmir, hneg, ?_⟩
  exact ((hsome (mkPt "p0" 0 0 true) rfl).2 (by norm_num [mkPt])).2

end ClipPathEditor
